import Mathlib

/-!
Shallow embedding of harfbuzz `src/hb-shape.cc`: the shaping orchestrator
(`hb_shape_full`, `hb_shape`, `hb_justify`) and the lazily constructed
shaper registry (`hb_shape_list_shapers`).  Collaborators implemented
outside this file (the shape-plan execution in `hb-shape-plan.cc`, the
lazy-loader machinery in `hb-machinery.hh`, and the line splitter
`hb_split_buffer_to_lines` declared in `hb-justification.h`) are modelled
from the specification and marked as such in their doc comments.
-/

namespace HB

/-- Buffer segment properties (script, direction, language), the
`buffer->props` field used as part of the shape-plan cache key. -/
structure SegmentProps where
  script : Nat
  direction : Nat
  language : Nat
deriving DecidableEq

/-- A user feature (`hb_feature_t`): tag, value, and the glyph-index range
it applies to. -/
structure Feature where
  tag : Nat
  value : Nat
  start : Nat
  finish : Nat
deriving DecidableEq

/-- A positioned glyph: glyph id plus its advance. -/
structure Glyph where
  id : Nat
  advance : Int
deriving DecidableEq

/-- Buffer content: Unicode text before shaping, glyphs after shaping,
line segments after splitting. -/
inductive BufferContent where
  | text (cps : List Nat)
  | glyphs (gs : List Glyph)
  | lines (ls : List (List Glyph))
deriving DecidableEq

/-- An `hb_buffer_t`: segment properties plus content, mutated in place. -/
structure Buffer where
  props : SegmentProps
  content : BufferContent
deriving DecidableEq

/-- An `hb_font_t`: face identity, variation coordinates, and the
nominal-glyph lookup collaborator (`font->get_nominal_glyph`), which
returns `none` when the font maps no glyph for the code point. -/
structure Font where
  face : Nat
  coords : List Int
  nominalGlyph : Nat → Option Nat

/-- One shaping backend: its registry name and its shaping behaviour.
`run` returns the success flag and the buffer state it leaves behind
(on failure the buffer holds whatever the backend left in it). -/
structure Shaper where
  name : String
  run : Font → List Feature → Buffer → Bool × Buffer

/-- The process-wide compiled-in backend set (`_hb_shapers_get`), in
priority order; fixed at build time. -/
structure Process where
  shapers : List Shaper

/-- The shape-plan cache key assembled by `hb_shape_full` (lines 130-133):
face, segment properties, features, variation coords, shaper list. -/
structure PlanKey where
  face : Nat
  props : SegmentProps
  features : List Feature
  coords : List Int
  shaperNames : Option (List String)
deriving DecidableEq

/-- A shape plan: the cache key it was built for plus the effective
backend sequence it will try in order. -/
structure ShapePlan where
  key : PlanKey
  shapers : List Shaper

/-- Look a backend name up in the compiled-in set. -/
def lookupShaper (env : List Shaper) (n : String) : Option Shaper :=
  env.find? (fun s => s.name = n)

/-- The effective backend order: the caller-supplied list (unknown names
skipped) when one is given, else the full compiled-in default. -/
def effectiveShapers (env : List Shaper) : Option (List String) → List Shaper
  | none => env
  | some names => names.filterMap (lookupShaper env)

/-- Modelled from the spec: `hb_shape_plan_create_cached2` lives in
`hb-shape-plan.cc`, outside this file's sources.  It returns a plan for
the key derived from face, buffer properties, features, variation
coordinates and the (optional) explicit shaper order. -/
def hb_shape_plan_create_cached2 (env : Process) (face : Nat)
    (props : SegmentProps) (features : List Feature) (coords : List Int)
    (shaper_list : Option (List String)) : ShapePlan :=
  ⟨⟨face, props, features, coords, shaper_list⟩,
   effectiveShapers env.shapers shaper_list⟩

/-- Modelled from the spec: sequential fallback over the plan's backends.
Backends are tried one at a time in order; the first success stops the
chain; if every backend fails (or the list is empty) the result is
`false` and the buffer holds the last attempted backend's leavings. -/
def executeShapers : List Shaper → Font → List Feature → Buffer → Bool × Buffer
  | [], _, _, b => (false, b)
  | s :: rest, f, fe, b =>
    match s.run f fe b with
    | (true, b1) => (true, b1)
    | (false, b1) => executeShapers rest f fe b1

/-- Modelled from the spec: `hb_shape_plan_execute` (in `hb-shape-plan.cc`,
outside this file's sources) executes the plan's backend chain against the
live font and buffer. -/
def hb_shape_plan_execute (plan : ShapePlan) (font : Font) (buffer : Buffer)
    (features : List Feature) : Bool × Buffer :=
  executeShapers plan.shapers font features buffer

/-- Whether some backend of the chain succeeds, threading the buffer
state left by each failed attempt into the next. -/
def shaperChainSucceeds : List Shaper → Font → List Feature → Buffer → Bool
  | [], _, _, _ => false
  | s :: rest, f, fe, b =>
    match s.run f fe b with
    | (true, _) => true
    | (false, b1) => shaperChainSucceeds rest f fe b1

/-- Observable resource and collaborator events of one orchestrator call,
used to state lifetime and ordering properties. -/
inductive Event where
  | acquirePlan (k : PlanKey)
  | executePlan (k : PlanKey) (ok : Bool)
  | destroyPlan (k : PlanKey)
  | nominalLookup (cp : Nat) (found : Bool)
  | splitLines (breakGlyph : Nat)
deriving DecidableEq

/-- Result of `hb_shape_full`: the boolean, the buffer, and the event
trace of the call. -/
structure ShapeFullResult where
  res : Bool
  buffer : Buffer
  trace : List Event
deriving DecidableEq

/-- `hb_shape_full` (lines 123-138): acquire a plan from the cache for
the derived key, execute it, destroy the plan, return the execution
result. -/
def hb_shape_full (env : Process) (font : Font) (buffer : Buffer)
    (features : List Feature) (shaper_list : Option (List String)) :
    ShapeFullResult :=
  let shape_plan := hb_shape_plan_create_cached2 env font.face buffer.props
    features font.coords shaper_list
  let r := hb_shape_plan_execute shape_plan font buffer features
  { res := r.1
    buffer := r.2
    trace := [Event.acquirePlan shape_plan.key,
              Event.executePlan shape_plan.key r.1,
              Event.destroyPlan shape_plan.key] }

/-- `hb_shape` (lines 156-163): calls `hb_shape_full` with the default
(null) shaper list and discards the boolean; only the buffer effect and
the trace remain. -/
def hb_shape (env : Process) (font : Font) (buffer : Buffer)
    (features : List Feature) : Buffer × List Event :=
  let r := hb_shape_full env font buffer features none
  (r.buffer, r.trace)

/-- Per-line target length: targets are consumed one per produced line in
order, and once exhausted the last one is reused for every further line
(spec, LineSplitter contract). -/
def targetFor : List Int → Nat → Int
  | [], _ => 0
  | [t], _ => t
  | t :: _ :: _, 0 => t
  | _ :: t1 :: rest, i + 1 => targetFor (t1 :: rest) i

/-- Index of the first glyph whose inclusion pushes the running advance
past the target, if any. -/
def overflowIndexAux (target : Int) (acc : Int) (i : Nat) :
    List Glyph → Option Nat
  | [] => none
  | g :: rest =>
    if target < acc + g.advance then some i
    else overflowIndexAux target (acc + g.advance) (i + 1) rest

/-- Index of the first glyph overflowing the target length. -/
def overflowIndex (target : Int) (gs : List Glyph) : Option Nat :=
  overflowIndexAux target 0 0 gs

/-- Index of the last occurrence of the break glyph in the list, if any. -/
def lastIdxOf (bg : Nat) : List Glyph → Option Nat
  | [] => none
  | g :: rest =>
    match lastIdxOf bg rest with
    | some j => some (j + 1)
    | none => if g.id = bg then some 0 else none

/-- Most recent break-glyph occurrence at or before position `k`. -/
def lastBreakBefore (bg : Nat) (k : Nat) (gs : List Glyph) : Option Nat :=
  lastIdxOf bg (gs.take (k + 1))

/-- Number of glyphs cut into the current line: everything when nothing
overflows; through the most recent break glyph at or before the overflow
point when one exists; a hard break at the overflow point otherwise
(at least one glyph, so the cut makes progress). -/
def cutLen (bg : Nat) (target : Int) (gs : List Glyph) : Nat :=
  match overflowIndex target gs with
  | none => gs.length
  | some k =>
    match lastBreakBefore bg k gs with
    | some j => j + 1
    | none => max k 1

/-- Fuel-indexed line-cutting loop; `li` is the index of the line being
produced. -/
def splitGo (bg : Nat) (targets : List Int) :
    Nat → Nat → List Glyph → List (List Glyph)
  | _, _, [] => []
  | 0, _, _ :: _ => []
  | fuel + 1, li, g :: gs =>
    (g :: gs).take (cutLen bg (targetFor targets li) (g :: gs)) ::
      splitGo bg targets fuel (li + 1)
        ((g :: gs).drop (cutLen bg (targetFor targets li) (g :: gs)))

/-- Modelled from the spec: `hb_split_buffer_to_lines` (declared in
`hb-justification.h`, implemented outside this file's sources) partitions
a shaped buffer into line segments bounded by the target lengths, cutting
at the designated break glyph where possible. -/
def hb_split_buffer_to_lines (gs : List Glyph) (targets : List Int)
    (bg : Nat) : List (List Glyph) :=
  splitGo bg targets gs.length 0 gs

/-- The glyph sequence of a shaped buffer (empty when the buffer does not
hold shaped glyphs). -/
def bufferGlyphs : Buffer → List Glyph
  | ⟨_, BufferContent.glyphs gs⟩ => gs
  | _ => []

/-- `hb_justify` (lines 181-202): on an empty target-length list it
returns immediately; otherwise it shapes with the default shaper list,
resolves the break glyph via the font's nominal-glyph lookup for the
space character (code point 32) into a local variable that stays at its
arbitrary prior value `uninitSpace` when the lookup fails (the call's
boolean result is ignored), and splits the buffer into lines. -/
def hb_justify (env : Process) (font : Font) (buffer : Buffer)
    (target_lengths : List Int) (features : List Feature)
    (uninitSpace : Nat) : Buffer × List Event :=
  if target_lengths.length = 0 then
    (buffer, [])
  else
    let r := hb_shape_full env font buffer features none
    let lookup := font.nominalGlyph 32
    let space := lookup.getD uninitSpace
    ({ props := r.buffer.props
       content := BufferContent.lines
         (hb_split_buffer_to_lines (bufferGlyphs r.buffer) target_lengths space) },
     r.trace ++ [Event.nominalLookup 32 lookup.isSome, Event.splitLines space])

/-- A shaper-list pointer: address plus contents; entry `none` is the
null sentinel. -/
structure ShaperListPtr where
  addr : Nat
  contents : List (Option String)
deriving DecidableEq

/-- The static degenerate list `nil_shaper_list` (line 54): a single null
sentinel, in static storage (address 0 in the model). -/
def nil_shaper_list : List (Option String) := [none]

/-- `hb_shaper_list_lazy_loader_t::create` (lines 59-74): allocate
`HB_SHAPERS_COUNT + 1` slots (`none` on allocation failure, modelled by
`allocOk = false`), copy each compiled backend's name in priority order,
and terminate with the null sentinel. -/
def shaper_list_create (allocOk : Bool) (env : Process) :
    Option (List (Option String)) :=
  if allocOk then some ((env.shapers.map (fun s => some s.name)) ++ [none])
  else none

/-- The lazy-loader's stored instance: `none` before first construction. -/
structure Registry where
  cached : Option ShaperListPtr
deriving DecidableEq

/-- The registry state at process start: nothing constructed yet. -/
def initRegistry : Registry := ⟨none⟩

/-- Modelled from the spec: the lazy-loader machinery of
`hb_lazy_loader_t` (`hb-machinery.hh`, outside this file's sources).
First access constructs the list via `create` at a fresh address and
caches it; a failed construction caches the static `nil_shaper_list`
null object (`get_null`, lines 77-78); every later access returns the
cached pointer unchanged. -/
def lazyLoaderGet (st : Registry) (env : Process) (allocOk : Bool)
    (freshAddr : Nat) : ShaperListPtr × Registry :=
  match st.cached with
  | some p => (p, st)
  | none =>
    match shaper_list_create allocOk env with
    | some l => (⟨freshAddr, l⟩, ⟨some ⟨freshAddr, l⟩⟩)
    | none => (⟨0, nil_shaper_list⟩, ⟨some ⟨0, nil_shaper_list⟩⟩)

/-- `hb_shape_list_shapers` (lines 98-102): return the lazily constructed
static shaper list. -/
def hb_shape_list_shapers (st : Registry) (env : Process) (allocOk : Bool)
    (freshAddr : Nat) : ShaperListPtr × Registry :=
  lazyLoaderGet st env allocOk freshAddr

/-- A demo backend that always succeeds and replaces the buffer content
with one glyph. -/
def demoShaper : Shaper :=
  ⟨"demo", fun _ _ b => (true, ⟨b.props, BufferContent.glyphs [⟨1, 1⟩]⟩)⟩

/-- A backend that always fails, leaving the buffer as it found it. -/
def failShaper : Shaper := ⟨"fail", fun _ _ b => (false, b)⟩

/-- A process whose only backend is the always-succeeding demo backend. -/
def demoEnv : Process := ⟨[demoShaper]⟩

/-- A process whose only backend always fails. -/
def failEnv : Process := ⟨[failShaper]⟩

/-- A font mapping the space character to glyph 3 and nothing else. -/
def demoFont : Font :=
  ⟨0, [], fun cp => if cp = 32 then some 3 else none⟩

/-- A font with no glyph for any character (nominal lookup always fails). -/
def nospaceFont : Font := ⟨1, [], fun _ => none⟩

/-- An unshaped demo buffer holding two code points. -/
def demoBuffer : Buffer := ⟨⟨0, 0, 0⟩, BufferContent.text [72, 105]⟩

/-- A non-break glyph of advance 1 (id 7). -/
def letterG : Glyph := ⟨7, 1⟩

/-- A break glyph of advance 1 (id 9). -/
def spaceG : Glyph := ⟨9, 1⟩

/-- A shaped line of eight unit-advance glyphs with break opportunities
at positions 1, 3 and 5. -/
def demoLine : List Glyph :=
  [letterG, spaceG, letterG, spaceG, letterG, spaceG, letterG, letterG]

theorem executeShapers_fst_eq_chain (ss : List Shaper) :
    ∀ f fe b, (executeShapers ss f fe b).1 = shaperChainSucceeds ss f fe b := by
  induction ss with
  | nil => intro f fe b; rfl
  | cons s rest ih =>
    intro f fe b
    simp only [executeShapers, shaperChainSucceeds]
    rcases hr : s.run f fe b with ⟨ok, b1⟩
    cases ok <;> simp [ih]

/-- C1 counterexample: on a concrete input, `hb_justify` with an empty
target-length list does not leave the buffer as a plain `hb_shape` call
would; it performs no shaping at all. -/
theorem justify_empty_not_shape_counterexample :
    ¬ (hb_justify demoEnv demoFont demoBuffer [] [] 0).1 =
      (hb_shape demoEnv demoFont demoBuffer []).1 := by
  decide

/-- C1 (amended): `hb_justify` with an empty target-length list returns
immediately: the buffer is left unchanged and no shaping, lookup or
splitting takes place. -/
theorem justify_empty_targets_noop (env : Process) (f : Font) (b : Buffer)
    (fe : List Feature) (u : Nat) :
    hb_justify env f b [] fe u = (b, []) := rfl

/-- C2: `hb_shape_full` returns exactly the boolean produced by executing
the acquired plan's backend chain over the effective order: true iff some
backend in the order succeeds, and in particular false, with the buffer
left unshaped, for an explicitly empty shaper list. -/
theorem shape_full_returns_execute_result (env : Process) (f : Font)
    (b : Buffer) (fe : List Feature) (sl : Option (List String)) :
    (hb_shape_full env f b fe sl).res =
      (executeShapers (effectiveShapers env.shapers sl) f fe b).1 ∧
    (hb_shape_full env f b fe sl).res =
      shaperChainSucceeds (effectiveShapers env.shapers sl) f fe b ∧
    (hb_shape_full env f b fe (some [])).res = false ∧
    (hb_shape_full env f b fe (some [])).buffer = b :=
  ⟨rfl, executeShapers_fst_eq_chain _ f fe b, rfl, rfl⟩

/-- C3: every `hb_shape_full` call acquires one plan for the derived
cache key, and its trace destroys that plan exactly once, as the last
event, whatever the execution outcome. -/
theorem shape_full_releases_plan_once (env : Process) (f : Font)
    (b : Buffer) (fe : List Feature) (sl : Option (List String)) :
    (hb_shape_full env f b fe sl).trace =
      [Event.acquirePlan
        (hb_shape_plan_create_cached2 env f.face b.props fe f.coords sl).key,
       Event.executePlan
        (hb_shape_plan_create_cached2 env f.face b.props fe f.coords sl).key
        (hb_shape_full env f b fe sl).res,
       Event.destroyPlan
        (hb_shape_plan_create_cached2 env f.face b.props fe f.coords sl).key] ∧
    (hb_shape_full env f b fe sl).trace.count
      (Event.destroyPlan
        (hb_shape_plan_create_cached2 env f.face b.props fe f.coords sl).key) = 1 := by
  refine ⟨rfl, ?_⟩
  simp [hb_shape_full, List.count_cons]

/-- C4: `hb_shape` has exactly the buffer effect and event trace of
`hb_shape_full` with the default (null) shaper list; only the boolean is
discarded. -/
theorem shape_equals_shape_full_default (env : Process) (f : Font)
    (b : Buffer) (fe : List Feature) :
    hb_shape env f b fe =
      ((hb_shape_full env f b fe none).buffer,
       (hb_shape_full env f b fe none).trace) := rfl

/-- C5: `hb_shape_list_shapers` constructs the list at most once: after a
first call, a second call from the resulting state returns the very same
pointer (address and contents) and leaves the state untouched, whatever
the allocation outcome or fresh address offered to the second call. -/
theorem list_shapers_construct_once (st : Registry) (env : Process)
    (a1 a2 : Bool) (f1 f2 : Nat) :
    (hb_shape_list_shapers (hb_shape_list_shapers st env a1 f1).2 env a2 f2).1 =
      (hb_shape_list_shapers st env a1 f1).1 ∧
    (hb_shape_list_shapers (hb_shape_list_shapers st env a1 f1).2 env a2 f2).2 =
      (hb_shape_list_shapers st env a1 f1).2 := by
  rcases st with ⟨_ | p⟩ <;> cases a1 <;> exact ⟨rfl, rfl⟩

/-- C6: when allocation fails during first construction,
`hb_shape_list_shapers` returns the static degenerate list: the single
null sentinel `nil_shaper_list`, with a normal return and no other error
channel. -/
theorem list_shapers_alloc_failure_nil (env : Process) (f : Nat) :
    (hb_shape_list_shapers initRegistry env false f).1.contents =
      nil_shaper_list ∧
    nil_shaper_list = [none] := ⟨rfl, rfl⟩

/-- C7: when the target-length list is nonempty and the font maps the
space character (code point 32) to a glyph, `hb_justify` resolves the
break glyph to exactly that nominal glyph, after shaping and before
splitting, and passes it to the line splitter. -/
theorem justify_break_glyph_is_nominal_space (env : Process) (f : Font)
    (b : Buffer) (ts : List Int) (fe : List Feature) (u g : Nat)
    (h : 0 < ts.length) (hg : f.nominalGlyph 32 = some g) :
    (hb_justify env f b ts fe u).2 =
      (hb_shape_full env f b fe none).trace ++
        [Event.nominalLookup 32 true, Event.splitLines g] ∧
    (hb_justify env f b ts fe u).1.content =
      BufferContent.lines
        (hb_split_buffer_to_lines
          (bufferGlyphs (hb_shape_full env f b fe none).buffer) ts g) := by
  rw [hb_justify, if_neg (by omega)]
  rw [hg]
  exact ⟨rfl, rfl⟩

/-- C7 witness: at a concrete font, buffer and one target length, the
break glyph handed to the splitter is the font's nominal glyph 3 for the
space character. -/
theorem justify_break_glyph_is_nominal_space_witness :
    (hb_justify demoEnv demoFont demoBuffer [5] [] 0).2 =
      (hb_shape_full demoEnv demoFont demoBuffer [] none).trace ++
        [Event.nominalLookup 32 true, Event.splitLines 3] ∧
    (hb_justify demoEnv demoFont demoBuffer [5] [] 0).1.content =
      BufferContent.lines
        (hb_split_buffer_to_lines
          (bufferGlyphs (hb_shape_full demoEnv demoFont demoBuffer [] none).buffer)
          [5] 3) :=
  justify_break_glyph_is_nominal_space demoEnv demoFont demoBuffer [5] [] 0 3
    (by decide) (by decide)

theorem targetFor_replicate (t : Int) :
    ∀ k i, targetFor (t :: List.replicate k t) i = t := by
  intro k
  induction k with
  | zero => intro i; rfl
  | succ k ih =>
    intro i
    cases i with
    | zero => rfl
    | succ j =>
      rw [List.replicate_succ]
      show targetFor (t :: List.replicate k t) j = t
      exact ih j

theorem targetFor_pad (t0 t1 : Int) (k : Nat) :
    ∀ i, targetFor [t0, t1] i = targetFor ([t0, t1] ++ List.replicate k t1) i := by
  intro i
  cases i with
  | zero =>
    show t0 = targetFor (t0 :: t1 :: List.replicate k t1) 0
    rfl
  | succ j =>
    show targetFor [t1] j = targetFor (t1 :: List.replicate k t1) j
    rw [targetFor_replicate t1 k j]
    rfl

theorem splitGo_congr (bg : Nat) (ts1 ts2 : List Int)
    (h : ∀ i, targetFor ts1 i = targetFor ts2 i) :
    ∀ fuel li gs, splitGo bg ts1 fuel li gs = splitGo bg ts2 fuel li gs := by
  intro fuel
  induction fuel with
  | zero => intro li gs; cases gs <;> rfl
  | succ n ih =>
    intro li gs
    cases gs with
    | nil => rfl
    | cons g rest =>
      show (g :: rest).take (cutLen bg (targetFor ts1 li) (g :: rest)) ::
          splitGo bg ts1 n (li + 1)
            ((g :: rest).drop (cutLen bg (targetFor ts1 li) (g :: rest))) =
        (g :: rest).take (cutLen bg (targetFor ts2 li) (g :: rest)) ::
          splitGo bg ts2 n (li + 1)
            ((g :: rest).drop (cutLen bg (targetFor ts2 li) (g :: rest)))
      rw [h li, ih]

/-- C8: the line splitter reuses the last supplied target length for
every line beyond the supplied count: splitting with `[t0, t1]` agrees
with splitting against `[t0, t1]` padded by any number of extra copies of
`t1`; concretely, an eight-glyph buffer split against two targets yields
four lines whose third and fourth lines are bounded by the second
target. -/
theorem split_last_target_repeats (gs : List Glyph) (bg : Nat)
    (t0 t1 : Int) (k : Nat) :
    hb_split_buffer_to_lines gs [t0, t1] bg =
      hb_split_buffer_to_lines gs ([t0, t1] ++ List.replicate k t1) bg ∧
    hb_split_buffer_to_lines demoLine [2, 2] 9 =
      [[letterG, spaceG], [letterG, spaceG], [letterG, spaceG],
       [letterG, letterG]] :=
  ⟨splitGo_congr bg [t0, t1] ([t0, t1] ++ List.replicate k t1)
    (targetFor_pad t0 t1 k) gs.length 0 gs, by decide⟩

/-- C9: with a nonempty target-length list, `hb_justify` always invokes
the line splitter: the split event follows the shaping trace
unconditionally, whatever boolean the internal `hb_shape_full` call
produced, and that boolean reaches no caller. -/
theorem justify_splits_unconditionally (env : Process) (f : Font)
    (b : Buffer) (ts : List Int) (fe : List Feature) (u : Nat)
    (h : 0 < ts.length) :
    Event.splitLines ((f.nominalGlyph 32).getD u) ∈
      (hb_justify env f b ts fe u).2 ∧
    (hb_justify env f b ts fe u).2 =
      (hb_shape_full env f b fe none).trace ++
        [Event.nominalLookup 32 (f.nominalGlyph 32).isSome,
         Event.splitLines ((f.nominalGlyph 32).getD u)] := by
  rw [hb_justify, if_neg (by omega)]
  exact ⟨by simp, rfl⟩

/-- C9 witness: in a process whose only backend fails, shaping reports
failure yet the split event is still emitted. -/
theorem justify_splits_unconditionally_witness :
    (hb_shape_full failEnv demoFont demoBuffer [] none).res = false ∧
    Event.splitLines ((demoFont.nominalGlyph 32).getD 0) ∈
      (hb_justify failEnv demoFont demoBuffer [4] [] 0).2 :=
  ⟨by decide,
   (justify_splits_unconditionally failEnv demoFont demoBuffer [4] [] 0
     (by decide)).1⟩

/-- C10: `hb_justify` ignores the nominal-glyph lookup's outcome: when
the font has no glyph for the space character, the break glyph passed to
the splitter is exactly the local variable's arbitrary prior value `u`
(uninitialized in the C code) for every `u`, and the call still completes
normally with no error reported. -/
theorem justify_uninit_space_on_lookup_failure (env : Process) (f : Font)
    (b : Buffer) (ts : List Int) (fe : List Feature) (u : Nat)
    (h : 0 < ts.length) (hn : f.nominalGlyph 32 = none) :
    (hb_justify env f b ts fe u).2 =
      (hb_shape_full env f b fe none).trace ++
        [Event.nominalLookup 32 false, Event.splitLines u] ∧
    (hb_justify env f b ts fe u).1.content =
      BufferContent.lines
        (hb_split_buffer_to_lines
          (bufferGlyphs (hb_shape_full env f b fe none).buffer) ts u) := by
  rw [hb_justify, if_neg (by omega)]
  rw [hn]
  exact ⟨rfl, rfl⟩

/-- C10 witness: with a font lacking a space glyph, the splitter receives
the arbitrary value 12345 that stood in the uninitialized variable. -/
theorem justify_uninit_space_on_lookup_failure_witness :
    (hb_justify demoEnv nospaceFont demoBuffer [4] [] 12345).2 =
      (hb_shape_full demoEnv nospaceFont demoBuffer [] none).trace ++
        [Event.nominalLookup 32 false, Event.splitLines 12345] ∧
    (hb_justify demoEnv nospaceFont demoBuffer [4] [] 12345).1.content =
      BufferContent.lines
        (hb_split_buffer_to_lines
          (bufferGlyphs (hb_shape_full demoEnv nospaceFont demoBuffer [] none).buffer)
          [4] 12345) :=
  justify_uninit_space_on_lookup_failure demoEnv nospaceFont demoBuffer [4] [] 12345
    (by decide) (by decide)

end HB
